import Mathlib

/-!
Verification development for the cheapcruises scraping pipeline.

The Python sources are shallowly embedded: timestamps are integers,
Python floats holding prices are rationals (with an explicit
constructor for the `float('inf')` sentinel), fallible parsing returns
`Option`, and the relational table is a list of rows.
-/

set_option maxRecDepth 10000

namespace CheapCruises

/-- Timestamps (Python `datetime` values) are modelled as integers with the
usual linear order; only ordering and equality of timestamps matter to the
embedded code. -/
abbrev DateTime := Int

/-- A Python float price-per-day value, which is either a finite number or the
`float('inf')` sentinel. -/
inductive PriceVal where
  | val (q : ℚ)
  | inf
  deriving DecidableEq, Repr, Inhabited

/-- The expression `total_price / duration if duration > 0 else float('inf')`
that every extractor uses to derive the price-per-day field. -/
def pricePerDay (total : ℚ) (durationDays : Int) : PriceVal :=
  if 0 < durationDays then .val (total / (durationDays : ℚ)) else .inf

/-- The `CruiseDeal` dataclass of models.py. -/
structure CruiseDeal where
  cruise_line : String
  ship_name : String
  destination : String
  departure_date : DateTime
  duration_days : Int
  total_price_aud : ℚ
  price_per_day : PriceVal
  cabin_type : String
  departure_port : String
  url : String
  scraped_at : DateTime
  special_offers : Option String := none
  image_url : Option String := none
  deriving DecidableEq, Repr

/-- A row of the cruise_deals table (`CruiseDealDB` of db_models.py), with the
columns touched by the embedded repository and pricing-job code. -/
structure CruiseDealDB where
  id : Nat
  cruise_line : String
  ship_name : String
  destination : String
  departure_date : DateTime
  duration_days : Int
  total_price_aud : ℚ
  price_per_day : PriceVal
  cabin_type : String
  departure_port : String
  url : String
  special_offers : Option String
  image_url : Option String
  price_2p_interior : Option ℚ := none
  price_4p_interior : Option ℚ := none
  scraped_at : DateTime
  last_updated : DateTime
  is_active : Bool
  deriving DecidableEq, Repr

/-- The WHERE clause of `CruiseDealRepository.find_existing`: all five
identity-tuple columns, plus `departure_port`, plus `is_active == True`. -/
def matchesDeal (deal : CruiseDeal) (row : CruiseDealDB) : Bool :=
  row.cruise_line == deal.cruise_line &&
  row.ship_name == deal.ship_name &&
  row.destination == deal.destination &&
  row.departure_date == deal.departure_date &&
  row.duration_days == deal.duration_days &&
  row.departure_port == deal.departure_port &&
  row.is_active == true

/-- `CruiseDealRepository.find_existing`: the first stored row satisfying the
WHERE clause (`scalar_one_or_none`; the table is assumed to hold at most one
matching row, as the upsert discipline maintains). -/
def findExisting (table : List CruiseDealDB) (deal : CruiseDeal) : Option CruiseDealDB :=
  table.find? (matchesDeal deal)

/-- The update branch of `CruiseDealRepository.create` (database_async.py
lines 76-87): every listed value field is assigned from the candidate
unconditionally.  The guard `hasattr(deal, 'image_url')` on the image
assignment is always true for the `CruiseDeal` dataclass, so `image_url` is
likewise copied unconditionally (null included). -/
def updateRow (deal : CruiseDeal) (now : DateTime) (row : CruiseDealDB) : CruiseDealDB :=
  { row with
    total_price_aud := deal.total_price_aud
    price_per_day := deal.price_per_day
    cabin_type := deal.cabin_type
    url := deal.url
    special_offers := deal.special_offers
    image_url := deal.image_url
    last_updated := now
    scraped_at := deal.scraped_at }

/-- The insert branch of `CruiseDealRepository.create`: a fresh row built from
the candidate, active, with a fresh id. -/
def newRow (deal : CruiseDeal) (now : DateTime) (nid : Nat) : CruiseDealDB :=
  { id := nid
    cruise_line := deal.cruise_line
    ship_name := deal.ship_name
    destination := deal.destination
    departure_date := deal.departure_date
    duration_days := deal.duration_days
    total_price_aud := deal.total_price_aud
    price_per_day := deal.price_per_day
    cabin_type := deal.cabin_type
    departure_port := deal.departure_port
    url := deal.url
    special_offers := deal.special_offers
    image_url := deal.image_url
    price_2p_interior := none
    price_4p_interior := none
    scraped_at := deal.scraped_at
    last_updated := now
    is_active := true }

/-- Replace the first element satisfying `p` by its image under `f` (the ORM
mutation of the single row returned by `find_existing`). -/
def updateFirst (p : β → Bool) (f : β → β) : List β → List β
  | [] => []
  | x :: xs => if p x then f x :: xs else x :: updateFirst p f xs

/-- `CruiseDealRepository.create`: update the matching stored row in place if
one exists, otherwise insert a new row at the end of the table. -/
def repoCreate (table : List CruiseDealDB) (deal : CruiseDeal) (now : DateTime)
    (nid : Nat) : List CruiseDealDB :=
  match findExisting table deal with
  | some _ => updateFirst (matchesDeal deal) (updateRow deal now) table
  | none => table ++ [newRow deal now nid]

/-- The `PromoCodeStatus` enumeration of promo_codes.py. -/
inductive PromoCodeStatus where
  | unknown
  | valid
  | expired
  | invalid
  | requiresConditions
  deriving DecidableEq, Repr

/-- The `PromoCode` dataclass of promo_codes.py. -/
structure PromoCode where
  code : String
  cruise_line : String
  description : String
  discount_type : String
  discount_value : Option ℚ := none
  valid_from : Option DateTime := none
  valid_until : Option DateTime := none
  conditions : Option String := none
  source_url : Option String := none
  status : PromoCodeStatus := .unknown
  last_validated : Option DateTime := none
  combinable_with : Option (List String) := none
  deriving DecidableEq, Repr

/-- `PromoCode.is_currently_valid`, with the current time passed explicitly in
place of `datetime.now()`.  A `datetime` object is always truthy in Python, so
`if self.valid_from and now < self.valid_from` tests the window exactly when
the bound is present. -/
def isCurrentlyValid (pc : PromoCode) (now : DateTime) : Bool :=
  if pc.status = PromoCodeStatus.invalid ∨ pc.status = PromoCodeStatus.expired then
    false
  else if (match pc.valid_from with
           | some f => decide (now < f)
           | none => false) then
    false
  else if (match pc.valid_until with
           | some u => decide (u < now)
           | none => false) then
    false
  else
    true

/-! Character-list helpers modelling the small amount of Python string and
regex machinery the extractors use.  Searches implement `re.search`'s
leftmost-match discipline: every start position is tried from the left, and at
a given position quantifiers match greedily (the patterns involved need no
backtracking on the texts concerned, as each greedy piece is followed by a
piece that cannot consume the same characters). -/

/-- Python `str.lower` on a character list. -/
def lowerChars (cs : List Char) : List Char := cs.map Char.toLower

/-- Python `str.lower` on a string. -/
def lowerStr (s : String) : String := String.mk (lowerChars s.toList)

/-- Python substring containment `pat in s` on character lists. -/
def containsSub (s pat : List Char) : Bool :=
  match s with
  | [] => pat.isEmpty
  | _ :: rest => pat.isPrefixOf s || containsSub rest pat

/-- Python substring containment `pat in s` on strings. -/
def strContains (s pat : String) : Bool := containsSub s.toList pat.toList

/-- Numeric value of a digit list, most significant digit first. -/
def natOfDigits (ds : List Char) : Nat :=
  ds.foldl (fun n c => 10 * n + (c.toNat - 48)) 0

/-- Drop leading regex whitespace (the `\s*` quantifier). -/
def dropWs (cs : List Char) : List Char := cs.dropWhile Char.isWhitespace

/-- Greedy match of `\d` repeated one to three times: at most three leading
digits, returned together with the rest of the input. -/
def upTo3Digits (cs : List Char) : List Char × List Char :=
  let ds := (cs.takeWhile Char.isDigit).take 3
  (ds, cs.drop ds.length)

/-- Greedy match of the comma-group quantifier (a comma followed by exactly
three digits, repeated): the collected digits and the rest of the input. -/
def commaGroups : List Char → List Char × List Char
  | ',' :: a :: b :: c :: rest =>
      if a.isDigit && b.isDigit && c.isDigit then
        let (ds, rest') := commaGroups rest
        (a :: b :: c :: ds, rest')
      else ([], ',' :: a :: b :: c :: rest)
  | cs => ([], cs)

/-- Match a thousands-separated amount (one to three digits then comma groups)
at the current position, as the scrapers' price regexes capture it; yields the
numeric value (commas stripped, per `.replace(',', '')`) and the rest. -/
def parseGroupedNumber (cs : List Char) : Option (Nat × List Char) :=
  let (ds, rest) := upTo3Digits cs
  if ds.isEmpty then none
  else
    let (gs, rest') := commaGroups rest
    some (natOfDigits (ds ++ gs), rest')

/-- Leftmost occurrence of the literal `lit` immediately followed by a
thousands-separated amount (the shape of the `Twin From \$(...)` and
`From \$(...)` price patterns). -/
def findLiteralNumber (lit : List Char) : List Char → Option Nat
  | [] => none
  | c :: cs =>
      if lit.isPrefixOf (c :: cs) then
        match parseGroupedNumber ((c :: cs).drop lit.length) with
        | some p => some p.1
        | none => findLiteralNumber lit cs
      else findLiteralNumber lit cs

/-- Leftmost match of a dollar sign followed by a thousands-separated amount,
optional whitespace and the literal `pp` (the third ozcruising price
pattern). -/
def findDollarNumberPP : List Char → Option Nat
  | [] => none
  | c :: cs =>
      if c = '$' then
        match parseGroupedNumber cs with
        | some p =>
            if ("pp".toList).isPrefixOf (dropWs p.2) then some p.1
            else findDollarNumberPP cs
        | none => findDollarNumberPP cs
      else findDollarNumberPP cs

/-- Leftmost match of a dollar sign followed by a thousands-separated amount
(the pricing-table cell pattern). -/
def findDollarNumber : List Char → Option Nat
  | [] => none
  | c :: cs =>
      if c = '$' then
        match parseGroupedNumber cs with
        | some p => some p.1
        | none => findDollarNumber cs
      else findDollarNumber cs

/-- Leftmost match of one or more digits, optional whitespace and any of the
given (lower-case) unit words, case-insensitively: the shape of the duration
patterns.  The optional plural `s` in the patterns does not affect the
captured number. -/
def findNumBeforeUnit (units : List (List Char)) : List Char → Option Nat
  | [] => none
  | c :: cs =>
      if c.isDigit then
        let ds := (c :: cs).takeWhile Char.isDigit
        let rest := dropWs ((c :: cs).drop ds.length)
        if units.any (fun u => u.isPrefixOf (lowerChars rest)) then
          some (natOfDigits ds)
        else findNumBeforeUnit units cs
      else findNumBeforeUnit units cs

/-! The OzCruising extractor (scrapers/ozcruising_scraper.py).  The embedding
works over the deal container's text content (`full_text`); the handful of
fields read off the DOM structure rather than the text (ship name from the
fa-ship icon, destination from the heading, departure port and date, the
detail URL) are taken as inputs of the parse function. -/

/-- The cruise-line cleanup chain of `_parse_deal` (lines 253-279), applied to
the container image's alt text when present. -/
def ozCruiseLine (imgAlt : Option String) : String :=
  let raw := match imgAlt with
             | some a => a
             | none => "Unknown"
  let l := lowerStr raw
  if strContains l "carnival" then "Carnival"
  else if strContains l "royal" then "Royal Caribbean"
  else if strContains l "princess" then "Princess Cruises"
  else if strContains l "celebrity" then "Celebrity Cruises"
  else if strContains l "norwegian" then "Norwegian Cruise Line"
  else if strContains l "cunard" then "Cunard"
  else if strContains l "holland" then "Holland America"
  else if strContains l "p&o" then "P&O Australia"
  else if strContains l "azamara" then "Azamara"
  else if strContains l "virgin" then "Virgin Voyages"
  else raw

/-- The cabin-type extraction of `_parse_deal` (lines 327-332). -/
def ozCabinType (fullText : String) : String :=
  if strContains fullText "Twin" then "Twin"
  else if strContains fullText "Quad" then "Quad"
  else "Interior"

/-- The price extraction of `_parse_deal` (lines 334-345): the three patterns
tried in order, value zero when none matches. -/
def ozDealPrice (fullText : String) : ℚ :=
  let cs := fullText.toList
  match findLiteralNumber ("Twin From $".toList) cs with
  | some n => (n : ℚ)
  | none =>
    match findLiteralNumber ("From $".toList) cs with
    | some n => (n : ℚ)
    | none =>
      match findDollarNumberPP cs with
      | some n => (n : ℚ)
      | none => 0

/-- The duration extraction inlined in `_parse_deal` (lines 347-351): the
leftmost `(\d+)\s*Nights?` match, taken as-is with no night-to-day
conversion; zero when the pattern is absent. -/
def ozInlineDuration (fullText : String) : Nat :=
  match findNumBeforeUnit ["night".toList] fullText.toList with
  | some n => n
  | none => 0

/-- The `_extract_duration` helper (lines 437-449): the leftmost
`(\d+)\s*(?:night|day)` match, incremented by one when the word `night`
occurs anywhere in the lower-cased text. -/
def ozExtractDuration (text : String) : Nat :=
  match findNumBeforeUnit ["night".toList, "day".toList] text.toList with
  | some days =>
      if containsSub (lowerChars text.toList) ("night".toList) then days + 1 else days
  | none => 0

/-- Python `str.strip`: trim whitespace from both ends. -/
def stripChars (cs : List Char) : List Char :=
  ((cs.dropWhile Char.isWhitespace).reverse.dropWhile Char.isWhitespace).reverse

/-- The capture of the `Bonus:\s*([^\n]+)` pattern: the text after the
leftmost `Bonus:`, whitespace skipped, up to the end of the line, stripped.
No match when that capture would be empty. -/
def findBonusCapture : List Char → Option String
  | [] => none
  | c :: cs =>
      if ("Bonus:".toList).isPrefixOf (c :: cs) then
        let captured := (dropWs ((c :: cs).drop 6)).takeWhile (fun ch => ch ≠ '\n')
        if captured.isEmpty then findBonusCapture cs
        else some (String.mk (stripChars captured))
      else findBonusCapture cs

/-- The special-offers extraction of `_parse_deal` (lines 378-385): the
`Bonus:` capture when present, the fixed text `Sale Fares` when the text
mentions a sale, and the empty string otherwise. -/
def ozSpecialOffers (fullText : String) : String :=
  if strContains fullText "Bonus:" then
    match findBonusCapture fullText.toList with
    | some s => s
    | none => ""
  else if strContains fullText "Sale" then "Sale Fares"
  else ""

/-- `OzCruisingScraper._parse_deal` (lines 247-410) on a container whose text
content is `fullText`.  `imgAlt` is the container image's alt text;
`shipName`, `destination`, `departurePort`, `url` and `departureDate` stand
for the DOM- and date-regex-derived extractions, which do not interact with
the price, duration or validity logic. -/
def ozParseDeal (fullText : String) (imgAlt : Option String)
    (shipName destination departurePort url : String)
    (departureDate scrapedAt : DateTime) : Option CruiseDeal :=
  let cruiseLine := ozCruiseLine imgAlt
  let cabinType := ozCabinType fullText
  let totalPrice := ozDealPrice fullText
  let duration := ozInlineDuration fullText
  let specialOffers := ozSpecialOffers fullText
  if totalPrice = 0 ∨ duration = 0 then none
  else
    some
      { cruise_line := cruiseLine
        ship_name := shipName
        destination := destination
        departure_date := departureDate
        duration_days := (duration : Int)
        total_price_aud := totalPrice
        price_per_day := pricePerDay totalPrice (duration : Int)
        cabin_type := cabinType
        departure_port := departurePort
        url := url
        scraped_at := scrapedAt
        special_offers := some specialOffers
        image_url := none }

/-- `OzCruisingScraper._is_duplicate` (lines 513-522): membership in the
accumulated deal list under five-tuple equality. -/
def ozIsDuplicate (deals : List CruiseDeal) (d : CruiseDeal) : Bool :=
  deals.any (fun x =>
    x.cruise_line == d.cruise_line &&
    x.ship_name == d.ship_name &&
    x.destination == d.destination &&
    x.departure_date == d.departure_date &&
    x.duration_days == d.duration_days)

/-! The Carnival API extractor (scrapers/carnival_api_scraper.py). -/

/-- The `leadSailing` object of a Carnival API itinerary; absent keys are
`none` (the Python code reads them with `.get` and a default). -/
structure CarnivalLeadSailing where
  fromPrice : Option ℚ := none
  departureDate : Option String := none
  leadMetaCode : Option String := none
  deriving DecidableEq, Repr

/-- One itinerary object of the Carnival search API response. -/
structure CarnivalItin where
  leadSailing : Option CarnivalLeadSailing := none
  shipName : Option String := none
  dur : Option Int := none
  departurePortName : Option String := none
  regionName : Option String := none
  image : Option String := none
  code : Option String := none
  shipCode : Option String := none
  departurePortCode : Option String := none
  deriving DecidableEq, Repr

/-- Modelled abstraction of `datetime.fromisoformat` on the ISO strings the
Carnival API returns: a string starting with a YYYY-MM-DD date parses to the
integer timestamp YYYYMMDD (sub-day precision does not matter to any claim),
anything else raises, which the caller turns into the current time. -/
def parseIsoDate (s : String) : Option DateTime :=
  match s.toList with
  | y1 :: y2 :: y3 :: y4 :: '-' :: m1 :: m2 :: '-' :: d1 :: d2 :: _ =>
      if y1.isDigit && y2.isDigit && y3.isDigit && y4.isDigit &&
         m1.isDigit && m2.isDigit && d1.isDigit && d2.isDigit then
        some ((natOfDigits [y1, y2, y3, y4, m1, m2, d1, d2] : Int))
      else none
  | _ => none

/-- The Carnival site base URL. -/
def carnivalBaseUrl : String := "https://www.carnival.com.au"

/-- `CarnivalAPIScraper._parse_itinerary` (lines 94-172), with `now` standing
for `datetime.now()`.  The `ship_code` and `port_code` locals of the source
are computed but never used, and are omitted. -/
def carnivalParseItinerary (itin : CarnivalItin) (now : DateTime) : Option CruiseDeal :=
  let lead := itin.leadSailing.getD {}
  let shipName := itin.shipName.getD "Unknown"
  let duration := itin.dur.getD 0
  let departurePort := itin.departurePortName.getD "Unknown"
  let destination := itin.regionName.getD "Various"
  let image := itin.image.getD ""
  let imageUrl :=
    if image ≠ "" ∧ ¬ (("http".toList).isPrefixOf image.toList) then
      carnivalBaseUrl ++ image
    else image
  let fromPrice := lead.fromPrice.getD 0
  let departureDateStr := lead.departureDate.getD ""
  let departureDate :=
    match parseIsoDate departureDateStr with
    | some t => t
    | none => now
  let cruiseCode := itin.code.getD ""
  let sailDate := if departureDateStr ≠ "" then departureDateStr.take 10 else ""
  let url :=
    if sailDate ≠ "" ∧ cruiseCode ≠ "" then
      carnivalBaseUrl ++ "/cruises/" ++ lowerStr cruiseCode ++ "?saildate=" ++ sailDate
    else if cruiseCode ≠ "" then carnivalBaseUrl ++ "/cruises/" ++ lowerStr cruiseCode
    else carnivalBaseUrl
  let durationDays : Int := if duration > 0 then duration + 1 else 1
  let pricePerDayVal := pricePerDay fromPrice durationDays
  let metaCode := lead.leadMetaCode.getD "IS"
  let cabinType :=
    if metaCode = "IS" then "Interior"
    else if metaCode = "OS" then "Oceanview"
    else if metaCode = "BS" then "Balcony"
    else if metaCode = "SU" then "Suite"
    else "Interior"
  if fromPrice ≤ 0 ∨ durationDays ≤ 0 then none
  else
    some
      { cruise_line := "Carnival"
        ship_name := shipName
        destination := destination
        departure_date := departureDate
        duration_days := durationDays
        total_price_aud := fromPrice
        price_per_day := pricePerDayVal
        cabin_type := cabinType
        departure_port := departurePort
        url := url
        scraped_at := now
        special_offers := none
        image_url := some imageUrl }

/-! Pagination (`OzCruisingScraper._scrape_with_pagination`, lines 119-159).
A source is a function from page numbers to fetch outcomes: `none` is a
failed fetch, `some cands` a page listing the candidates `cands`.  Parsing a
page appends its candidates to the accumulator, dropping those already
present (the `_is_duplicate` check; candidates are compared by their dedup
key, modelled as plain equality on the candidate type). -/

/-- Appending one page's candidates with the per-candidate duplicate check. -/
def dedupAppend {α : Type} [DecidableEq α] (acc : List α) (page : List α) : List α :=
  page.foldl (fun a c => if c ∈ a then a else a ++ [c]) acc

/-- The pagination loop body.  `fuel` bounds the recursion; the top-level
entry point supplies enough fuel for the `while page_num <= max_pages` loop
to run to its natural end.  Returns the accumulated candidates and the list
of fetched page numbers. -/
def ozPagGo {α : Type} [DecidableEq α] (fetch : Nat → Option (List α)) (maxPages : Nat) :
    Nat → Nat → Nat → List α → List Nat → List α × List Nat
  | 0, _, _, acc, visited => (acc, visited)
  | fuel + 1, pageNum, consecEmpty, acc, visited =>
      if pageNum > maxPages then (acc, visited)
      else
        match fetch pageNum with
        | none => (acc, visited ++ [pageNum])
        | some cands =>
            if cands.length = 0 then
              if consecEmpty + 1 ≥ 2 then (acc, visited ++ [pageNum])
              else ozPagGo fetch maxPages fuel (pageNum + 1) (consecEmpty + 1) acc
                     (visited ++ [pageNum])
            else
              ozPagGo fetch maxPages fuel (pageNum + 1) 0 (dedupAppend acc cands)
                (visited ++ [pageNum])

/-- One run of `_scrape_with_pagination` over a source, starting at page 1
with the consecutive-empty counter at zero and an empty accumulator. -/
def ozScrapeWithPagination {α : Type} [DecidableEq α] (fetch : Nat → Option (List α))
    (maxPages : Nat) : List α × List Nat :=
  ozPagGo fetch maxPages (maxPages + 1) 1 0 [] []

/-! Failure handling (`BaseScraper.get_page`, `OzCruisingScraper.scrape` and
the orchestrator loop of main.py).  `get_page` retries, and on final failure
raises rather than returning; the whole body of `scrape` sits in a single
try/except, so a raised fetch error skips every remaining page of that source
while the deals accumulated so far are still returned.  Candidate-level parse
failures inside `_parse_page` are caught per candidate.  A page is a list of
candidate outcomes: `none` is a candidate whose parse failed (or returned no
record), `some d` a parsed deal. -/

/-- `_parse_page` over one page's candidate outcomes: parsed candidates are
appended with the duplicate check, failed candidates are skipped. -/
def parsePageCandidates {α : Type} [DecidableEq α] (acc : List α)
    (cands : List (Option α)) : List α :=
  cands.foldl
    (fun a c =>
      match c with
      | some d => if d ∈ a then a else a ++ [d]
      | none => a)
    acc

/-- The page loop of `scrape`: pages are processed in order; the first page
whose fetch raises (an `Except.error`) aborts the loop, and the accumulated
deals are returned by the surrounding try/except. -/
def ozScrapePages {α : Type} [DecidableEq α] :
    List (Except Unit (List (Option α))) → List α → List α
  | [], acc => acc
  | .error _ :: _, acc => acc
  | .ok cands :: rest, acc => ozScrapePages rest (parsePageCandidates acc cands)

/-- The loop body of the orchestrator of main.py: a scraper that returned
normally contributes its deals, a scraper that raised contributes nothing. -/
def scraperStep {α : Type} (acc : List α) (r : Except Unit (List α)) : List α :=
  match r with
  | .ok ds => acc ++ ds
  | .error _ => acc

/-- The orchestrator loop of main.py (lines 76-89): each scraper runs inside
its own try/except, and the non-failing scrapers' deal lists are
concatenated. -/
def runScrapers {α : Type} (results : List (Except Unit (List α))) : List α :=
  results.foldl scraperStep []

/-! The enrichment/pricing pass (pricing_scraper.py and
update_pricing_job.py). -/

/-- One rendered table row of a detail page: its full text and its `td` cell
texts. -/
structure PageRow where
  text : String
  cells : List String
  deriving DecidableEq, Repr

/-- The per-row step of `PricingScraper._extract_cheapest_interior_price`
(lines 121-144): rows whose lower-cased text lacks `interior` or mentions
`sold out` are skipped, and otherwise the fourth cell's dollar amount (the
total cabin price column) is taken when present. -/
def rowInteriorPrice (row : PageRow) : Option ℚ :=
  let t := lowerStr row.text
  if ¬ strContains t "interior" then none
  else if strContains t "sold out" then none
  else
    match row.cells.get? 3 with
    | some cell =>
        match findDollarNumber cell.toList with
        | some n => some (n : ℚ)
        | none => none
    | none => none

/-- `PricingScraper._extract_cheapest_interior_price` (lines 113-154): the
minimum of the qualifying rows' prices, `none` when there are none. -/
def extractCheapestInteriorPrice (rows : List PageRow) : Option ℚ :=
  match rows.filterMap rowInteriorPrice with
  | [] => none
  | p :: ps => some (ps.foldl min p)

/-- Python truthiness of an optional float (`if price_2p or price_4p`): a
present, non-zero value. -/
def truthyPrice (p : Option ℚ) : Bool :=
  match p with
  | some q => q != 0
  | none => false

/-- The per-deal update step of `update_all_pricing` (update_pricing_job.py
lines 34-44): when the pricing scraper found either price, the two interior
price columns are assigned; nothing else on the row is touched. -/
def updatePricingStep (row : CruiseDealDB) (price2p price4p : Option ℚ) : CruiseDealDB :=
  if truthyPrice price2p || truthyPrice price4p then
    { row with price_2p_interior := price2p, price_4p_interior := price4p }
  else row

/-! Helper lemmas about the repository's update-in-place operation. -/

/-- A successful `find?` splits the list at the first satisfying element, and
`updateFirst` rewrites exactly that element. -/
lemma updateFirst_decomp {β : Type} (p : β → Bool) (f : β → β) :
    ∀ (l : List β) (r : β), l.find? p = some r →
      ∃ pre post, l = pre ++ r :: post ∧ (∀ x ∈ pre, p x = false) ∧
        updateFirst p f l = pre ++ f r :: post ∧ p r = true := by
  intro l
  induction l with
  | nil => intro r h; simp [List.find?] at h
  | cons x xs ih =>
    intro r h
    by_cases hp : p x
    · rw [List.find?_cons_of_pos _ hp] at h
      obtain rfl : x = r := by injection h
      exact ⟨[], xs, rfl, by simp, by simp [updateFirst, hp], hp⟩
    · rw [List.find?_cons_of_neg _ hp] at h
      obtain ⟨pre, post, hl, hpre, hupd, hr⟩ := ih r h
      refine ⟨x :: pre, post, by simp [hl], ?_, ?_, hr⟩
      · intro y hy
        rcases List.mem_cons.mp hy with rfl | hy'
        · simpa using hp
        · exact hpre y hy'
      · simp [updateFirst, hp, hupd]

/-- `updateFirst` never changes the length of the table. -/
lemma updateFirst_length {β : Type} (p : β → Bool) (f : β → β) :
    ∀ l : List β, (updateFirst p f l).length = l.length := by
  intro l
  induction l with
  | nil => rfl
  | cons x xs ih =>
    by_cases hp : p x <;> simp [updateFirst, hp, ih]

/-- C9.  For every PromoCode and every evaluation time, the validity check is
a pure function of the code's status and the current time against the
validity window: it returns false whenever status is invalid or expired,
false whenever the current time is before valid_from or after valid_until,
and true otherwise. -/
theorem promo_validity_characterization (pc : PromoCode) (now : DateTime) :
    isCurrentlyValid pc now = true ↔
      ((pc.status ≠ PromoCodeStatus.invalid ∧ pc.status ≠ PromoCodeStatus.expired) ∧
       (∀ f, pc.valid_from = some f → f ≤ now) ∧
       (∀ u, pc.valid_until = some u → now ≤ u)) := by
  rcases hvf : pc.valid_from with _ | f <;> rcases hvu : pc.valid_until with _ | u <;>
    simp only [isCurrentlyValid, hvf, hvu] <;>
    split_ifs <;>
    simp_all <;>
    first
      | omega
      | tauto

/-- Witness for C9 at a concrete promo code and time. -/
theorem promo_validity_characterization_witness :
    isCurrentlyValid
        { code := "SSOBENEFIT", cruise_line := "Royal Caribbean",
          description := "Sydney Symphony Orchestra", discount_type := "percentage",
          discount_value := some 10, valid_from := some 20250201,
          valid_until := some 20260131, status := PromoCodeStatus.valid } 20251012 = true
      ↔
      ((PromoCodeStatus.valid ≠ PromoCodeStatus.invalid ∧
        PromoCodeStatus.valid ≠ PromoCodeStatus.expired) ∧
       (∀ f, (some (20250201 : DateTime)) = some f → f ≤ 20251012) ∧
       (∀ u, (some (20260131 : DateTime)) = some u → 20251012 ≤ u)) :=
  promo_validity_characterization
    { code := "SSOBENEFIT", cruise_line := "Royal Caribbean",
      description := "Sydney Symphony Orchestra", discount_type := "percentage",
      discount_value := some 10, valid_from := some 20250201,
      valid_until := some 20260131, status := PromoCodeStatus.valid } 20251012

/-- Identity-side frame of a table row: id, the six identity columns and the
active flag agree between the two rows. -/
def rowIdentityPreserved (a b : CruiseDealDB) : Prop :=
  b.id = a.id ∧ b.cruise_line = a.cruise_line ∧ b.ship_name = a.ship_name ∧
  b.destination = a.destination ∧ b.departure_date = a.departure_date ∧
  b.duration_days = a.duration_days ∧ b.departure_port = a.departure_port ∧
  b.is_active = a.is_active

/-- C10.  When the repository upsert matches a stored row, the table keeps its
length (no new row), every row keeps its id, identity fields and active flag,
and every row is either untouched or is the matched row rewritten by the
value-field update. -/
theorem upsert_update_frame (table : List CruiseDealDB) (deal : CruiseDeal)
    (now : DateTime) (nid : Nat) (r : CruiseDealDB)
    (h : findExisting table deal = some r) :
    (repoCreate table deal now nid).length = table.length ∧
    List.Forall₂
      (fun a b => rowIdentityPreserved a b ∧ (b = a ∨ b = updateRow deal now a))
      table (repoCreate table deal now nid) := by
  have hrepo : repoCreate table deal now nid
      = updateFirst (matchesDeal deal) (updateRow deal now) table := by
    unfold repoCreate
    rw [h]
  rw [hrepo]
  refine ⟨updateFirst_length _ _ table, ?_⟩
  clear h hrepo
  induction table with
  | nil => simp [updateFirst]
  | cons x xs ih =>
    by_cases hp : matchesDeal deal x
    · simp only [updateFirst, hp, if_true]
      refine List.Forall₂.cons ⟨⟨rfl, rfl, rfl, rfl, rfl, rfl, rfl, rfl⟩, Or.inr rfl⟩ ?_
      refine List.forall₂_same.mpr ?_
      intro y _
      exact ⟨⟨rfl, rfl, rfl, rfl, rfl, rfl, rfl, rfl⟩, Or.inl rfl⟩
    · simp only [updateFirst, hp, if_false]
      exact List.Forall₂.cons ⟨⟨rfl, rfl, rfl, rfl, rfl, rfl, rfl, rfl⟩, Or.inl rfl⟩ ih

/-- A fully populated stored row used by the repository theorems. -/
def existingFullRow : CruiseDealDB :=
  { id := 1
    cruise_line := "Carnival"
    ship_name := "Carnival Splendor"
    destination := "Pacific"
    departure_date := 20260301
    duration_days := 8
    total_price_aud := 1000
    price_per_day := PriceVal.val 125
    cabin_type := "Interior"
    departure_port := "Sydney"
    url := "https://sourcea.example/deal"
    special_offers := some "Sale Fares"
    image_url := none
    scraped_at := 100
    last_updated := 100
    is_active := true }

/-- A candidate that matches `existingFullRow` and whose only populated
optional field is `image_url` (its `special_offers` is null). -/
def imageOnlyCandidate : CruiseDeal :=
  { cruise_line := "Carnival"
    ship_name := "Carnival Splendor"
    destination := "Pacific"
    departure_date := 20260301
    duration_days := 8
    total_price_aud := 1000
    price_per_day := PriceVal.val 125
    cabin_type := "Interior"
    departure_port := "Sydney"
    url := "https://sourcea.example/deal"
    scraped_at := 150
    special_offers := none
    image_url := some "https://img.example/ship.jpg" }

/-- Witness for C10 at a one-row table and a matching candidate. -/
theorem upsert_update_frame_witness :
    (repoCreate [existingFullRow] imageOnlyCandidate 200 2).length = [existingFullRow].length ∧
    List.Forall₂
      (fun a b => rowIdentityPreserved a b ∧ (b = a ∨ b = updateRow imageOnlyCandidate 200 a))
      [existingFullRow] (repoCreate [existingFullRow] imageOnlyCandidate 200 2) :=
  upsert_update_frame [existingFullRow] imageOnlyCandidate 200 2 existingFullRow (by decide)

/-- Counterexample to C2: merging a candidate whose only populated optional
field is `image_url` into a matching stored record clobbers the stored
record's populated `special_offers` with the candidate's null. -/
theorem merge_field_level_cex :
    imageOnlyCandidate.special_offers = none ∧
    existingFullRow.special_offers = some "Sale Fares" ∧
    (repoCreate [existingFullRow] imageOnlyCandidate 200 2).map CruiseDealDB.special_offers
      = [none] ∧
    (repoCreate [existingFullRow] imageOnlyCandidate 200 2).map CruiseDealDB.image_url
      = [some "https://img.example/ship.jpg"] := by
  decide

/-- C2 as amended.  The persistence merge is record-level last-write-wins on
the value fields: the first matching stored row is rewritten with the
candidate's `total_price_aud`, `price_per_day`, `cabin_type`, `url`,
`special_offers`, `image_url` (nulls included) and `scraped_at`, with
`last_updated` set to the present time, while every other row of the table is
left untouched. -/
theorem merge_record_level_lastwrite (table : List CruiseDealDB) (deal : CruiseDeal)
    (now : DateTime) (nid : Nat) (r : CruiseDealDB)
    (h : findExisting table deal = some r) :
    ∃ pre post, table = pre ++ r :: post ∧
      (∀ x ∈ pre, matchesDeal deal x = false) ∧
      repoCreate table deal now nid = pre ++ updateRow deal now r :: post ∧
      (updateRow deal now r).total_price_aud = deal.total_price_aud ∧
      (updateRow deal now r).price_per_day = deal.price_per_day ∧
      (updateRow deal now r).cabin_type = deal.cabin_type ∧
      (updateRow deal now r).url = deal.url ∧
      (updateRow deal now r).special_offers = deal.special_offers ∧
      (updateRow deal now r).image_url = deal.image_url ∧
      (updateRow deal now r).scraped_at = deal.scraped_at ∧
      (updateRow deal now r).last_updated = now := by
  obtain ⟨pre, post, hl, hpre, hupd, _⟩ :=
    updateFirst_decomp (matchesDeal deal) (updateRow deal now) table r h
  refine ⟨pre, post, hl, hpre, ?_, rfl, rfl, rfl, rfl, rfl, rfl, rfl, rfl⟩
  unfold repoCreate
  rw [h]
  exact hupd

/-- Witness for the amended C2 at a one-row table and the image-only
candidate. -/
theorem merge_record_level_lastwrite_witness :
    ∃ pre post, [existingFullRow] = pre ++ existingFullRow :: post ∧
      (∀ x ∈ pre, matchesDeal imageOnlyCandidate x = false) ∧
      repoCreate [existingFullRow] imageOnlyCandidate 200 2
        = pre ++ updateRow imageOnlyCandidate 200 existingFullRow :: post ∧
      (updateRow imageOnlyCandidate 200 existingFullRow).total_price_aud
        = imageOnlyCandidate.total_price_aud ∧
      (updateRow imageOnlyCandidate 200 existingFullRow).price_per_day
        = imageOnlyCandidate.price_per_day ∧
      (updateRow imageOnlyCandidate 200 existingFullRow).cabin_type
        = imageOnlyCandidate.cabin_type ∧
      (updateRow imageOnlyCandidate 200 existingFullRow).url = imageOnlyCandidate.url ∧
      (updateRow imageOnlyCandidate 200 existingFullRow).special_offers
        = imageOnlyCandidate.special_offers ∧
      (updateRow imageOnlyCandidate 200 existingFullRow).image_url
        = imageOnlyCandidate.image_url ∧
      (updateRow imageOnlyCandidate 200 existingFullRow).scraped_at
        = imageOnlyCandidate.scraped_at ∧
      (updateRow imageOnlyCandidate 200 existingFullRow).last_updated = 200 :=
  merge_record_level_lastwrite [existingFullRow] imageOnlyCandidate 200 2 existingFullRow
    (by decide)

/-- A stored active row departing Sydney. -/
def storedPortRow : CruiseDealDB :=
  { id := 3
    cruise_line := "Princess Cruises"
    ship_name := "Royal Princess"
    destination := "New Zealand"
    departure_date := 20261105
    duration_days := 13
    total_price_aud := 1950
    price_per_day := PriceVal.val 150
    cabin_type := "Interior"
    departure_port := "Sydney"
    url := "https://sourcea.example/nz"
    special_offers := none
    image_url := none
    scraped_at := 100
    last_updated := 100
    is_active := true }

/-- A candidate agreeing with `storedPortRow` on the whole five-tuple but
departing from a different port. -/
def otherPortCandidate : CruiseDeal :=
  { cruise_line := "Princess Cruises"
    ship_name := "Royal Princess"
    destination := "New Zealand"
    departure_date := 20261105
    duration_days := 13
    total_price_aud := 1898
    price_per_day := PriceVal.val 146
    cabin_type := "Interior"
    departure_port := "Brisbane"
    url := "https://sourceb.example/nz"
    scraped_at := 150 }

/-- Counterexample to C4: a stored record and a candidate agreeing on the
five-tuple do not match at the persistence boundary when their departure
ports differ, and persisting the candidate inserts a second row instead of
updating the stored one. -/
theorem five_tuple_persistence_cex :
    storedPortRow.cruise_line = otherPortCandidate.cruise_line ∧
    storedPortRow.ship_name = otherPortCandidate.ship_name ∧
    storedPortRow.destination = otherPortCandidate.destination ∧
    storedPortRow.departure_date = otherPortCandidate.departure_date ∧
    storedPortRow.duration_days = otherPortCandidate.duration_days ∧
    findExisting [storedPortRow] otherPortCandidate = none ∧
    (repoCreate [storedPortRow] otherPortCandidate 300 7).length = 2 := by
  decide

/-- C4 as amended.  The in-run scraper dedup compares exactly the five-tuple;
the persistence boundary matches on the five-tuple plus `departure_port`
restricted to active rows, and a stored row matching on all of those is
updated in place with no new row inserted. -/
theorem dedup_keys_characterization (table : List CruiseDealDB) (deal : CruiseDeal)
    (now : DateTime) (nid : Nat) (r : CruiseDealDB)
    (h : findExisting table deal = some r) :
    (r.cruise_line = deal.cruise_line ∧ r.ship_name = deal.ship_name ∧
     r.destination = deal.destination ∧ r.departure_date = deal.departure_date ∧
     r.duration_days = deal.duration_days ∧ r.departure_port = deal.departure_port ∧
     r.is_active = true) ∧
    (repoCreate table deal now nid).length = table.length ∧
    (∀ (deals : List CruiseDeal) (d : CruiseDeal),
       ozIsDuplicate deals d = true ↔
         ∃ y ∈ deals, y.cruise_line = d.cruise_line ∧ y.ship_name = d.ship_name ∧
           y.destination = d.destination ∧ y.departure_date = d.departure_date ∧
           y.duration_days = d.duration_days) := by
  have hmatch : matchesDeal deal r = true := List.find?_some h
  refine ⟨?_, ?_, ?_⟩
  · simp only [matchesDeal, Bool.and_eq_true, beq_iff_eq] at hmatch
    tauto
  · unfold repoCreate
    rw [h]
    exact updateFirst_length _ _ table
  · intro deals d
    simp [ozIsDuplicate, List.any_eq_true, Bool.and_eq_true, beq_iff_eq, and_assoc]

/-- Witness for the amended C4 at a one-row table with an exactly matching
candidate. -/
theorem dedup_keys_characterization_witness :
    (existingFullRow.cruise_line = imageOnlyCandidate.cruise_line ∧
     existingFullRow.ship_name = imageOnlyCandidate.ship_name ∧
     existingFullRow.destination = imageOnlyCandidate.destination ∧
     existingFullRow.departure_date = imageOnlyCandidate.departure_date ∧
     existingFullRow.duration_days = imageOnlyCandidate.duration_days ∧
     existingFullRow.departure_port = imageOnlyCandidate.departure_port ∧
     existingFullRow.is_active = true) ∧
    (repoCreate [existingFullRow] imageOnlyCandidate 400 9).length = [existingFullRow].length ∧
    (∀ (deals : List CruiseDeal) (d : CruiseDeal),
       ozIsDuplicate deals d = true ↔
         ∃ y ∈ deals, y.cruise_line = d.cruise_line ∧ y.ship_name = d.ship_name ∧
           y.destination = d.destination ∧ y.departure_date = d.departure_date ∧
           y.duration_days = d.duration_days) :=
  dedup_keys_characterization [existingFullRow] imageOnlyCandidate 400 9 existingFullRow
    (by decide)

/-- The derived-field invariant on a deal: its price-per-day field is the
formula applied to its own price and duration. -/
def dealPriceInv (d : CruiseDeal) : Prop :=
  d.price_per_day = pricePerDay d.total_price_aud d.duration_days

/-- The derived-field invariant on a stored row. -/
def rowPriceInv (r : CruiseDealDB) : Prop :=
  r.price_per_day = pricePerDay r.total_price_aud r.duration_days

/-- C1.  Every deal emitted by the embedded extractors satisfies the
price-per-day equation, the repository upsert re-establishes it on every row
(the update writes price and price-per-day together, and only onto a row
whose duration matches the candidate's), and the pricing pass preserves
it. -/
theorem price_per_day_invariant :
    (∀ (fullText : String) (imgAlt : Option String) (sn dest dp u : String)
        (dd sa : DateTime) (d : CruiseDeal),
        ozParseDeal fullText imgAlt sn dest dp u dd sa = some d → dealPriceInv d) ∧
    (∀ (itin : CarnivalItin) (now : DateTime) (d : CruiseDeal),
        carnivalParseItinerary itin now = some d → dealPriceInv d) ∧
    (∀ (table : List CruiseDealDB) (deal : CruiseDeal) (now : DateTime) (nid : Nat),
        dealPriceInv deal → (∀ r ∈ table, rowPriceInv r) →
        ∀ r' ∈ repoCreate table deal now nid, rowPriceInv r') ∧
    (∀ (r : CruiseDealDB) (p2 p4 : Option ℚ),
        rowPriceInv r → rowPriceInv (updatePricingStep r p2 p4)) := by
  refine ⟨?_, ?_, ?_, ?_⟩
  · intro ft imgAlt sn dest dp u dd sa d h
    simp only [ozParseDeal] at h
    split at h
    · exact absurd h (by simp)
    · injection h with h
      subst h
      rfl
  · intro itin now d h
    simp only [carnivalParseItinerary] at h
    split at h <;>
      (split at h
       · exact absurd h (by simp)
       · injection h with h
         subst h
         rfl)
  · intro table deal now nid hdeal htable r' hr'
    unfold repoCreate at hr'
    cases hfind : findExisting table deal with
    | some r =>
      rw [hfind] at hr'
      obtain ⟨pre, post, hl, _, hupd, hmatch⟩ :=
        updateFirst_decomp (matchesDeal deal) (updateRow deal now) table r hfind
      rw [hupd] at hr'
      rcases List.mem_append.mp hr' with hmem | hmem
      · exact htable r' (hl ▸ List.mem_append_left _ hmem)
      · rcases List.mem_cons.mp hmem with rfl | hmem
        · have hdur : r.duration_days = deal.duration_days := by
            simp only [matchesDeal, Bool.and_eq_true, beq_iff_eq] at hmatch
            exact hmatch.1.1.2
          show (updateRow deal now r).price_per_day
              = pricePerDay (updateRow deal now r).total_price_aud
                  (updateRow deal now r).duration_days
          show deal.price_per_day = pricePerDay deal.total_price_aud r.duration_days
          rw [hdur]
          exact hdeal
        · exact htable r' (hl ▸ List.mem_append_right _ (List.mem_cons_of_mem _ hmem))
    | none =>
      rw [hfind] at hr'
      rcases List.mem_append.mp hr' with hmem | hmem
      · exact htable r' hmem
      · rcases List.mem_cons.mp hmem with rfl | hmem
        · exact hdeal
        · simp at hmem
  · intro r p2 p4 h
    unfold updatePricingStep
    split
    · exact h
    · exact h

/-- A concrete Carnival API itinerary with a full lead sailing. -/
def sampleItin : CarnivalItin :=
  { leadSailing := some
      { fromPrice := some 800
        departureDate := some "2026-03-01T00:00:00"
        leadMetaCode := some "IS" }
    shipName := some "Carnival Luminosa"
    dur := some 9
    departurePortName := some "Brisbane"
    regionName := some "South Pacific"
    image := some "/img/lum.jpg"
    code := some "LU09" }

/-- The deal `sampleItin` parses to (nine nights become ten days). -/
def carnivalSampleDeal : CruiseDeal :=
  { cruise_line := "Carnival"
    ship_name := "Carnival Luminosa"
    destination := "South Pacific"
    departure_date := 20260301
    duration_days := 10
    total_price_aud := 800
    price_per_day := pricePerDay 800 10
    cabin_type := "Interior"
    departure_port := "Brisbane"
    url := "https://www.carnival.com.au/cruises/lu09?saildate=2026-03-01"
    scraped_at := 77
    special_offers := none
    image_url := some "https://www.carnival.com.au/img/lum.jpg" }

/-- Witness for C1 at a concrete Carnival itinerary. -/
theorem price_per_day_invariant_witness :
    carnivalParseItinerary sampleItin 77 = some carnivalSampleDeal ∧
    dealPriceInv carnivalSampleDeal :=
  ⟨rfl, price_per_day_invariant.2.1 sampleItin 77 carnivalSampleDeal rfl⟩

/-- The ozcruising price extraction never yields a negative amount. -/
lemma ozDealPrice_nonneg (ft : String) : 0 ≤ ozDealPrice ft := by
  simp only [ozDealPrice]
  split
  · exact Nat.cast_nonneg _
  · split
    · exact Nat.cast_nonneg _
    · split
      · exact Nat.cast_nonneg _
      · exact le_refl 0

/-- A Carnival itinerary whose extracted duration is zero. -/
def zeroDurItin : CarnivalItin :=
  { dur := some 0
    leadSailing := some { fromPrice := some 500 } }

/-- The deal `zeroDurItin` parses to: it is emitted with the duration
defaulted to one day. -/
def zeroDurParsedDeal : CruiseDeal :=
  { cruise_line := "Carnival"
    ship_name := "Unknown"
    destination := "Various"
    departure_date := 60
    duration_days := 1
    total_price_aud := 500
    price_per_day := pricePerDay 500 1
    cabin_type := "Interior"
    departure_port := "Unknown"
    url := "https://www.carnival.com.au"
    scraped_at := 60
    special_offers := none
    image_url := some "" }

/-- Counterexample to C5: a Carnival itinerary with extracted duration zero is
not discarded; it is emitted with `duration_days` defaulted to 1. -/
theorem nonpositive_discard_cex :
    zeroDurItin.dur.getD 0 = 0 ∧
    carnivalParseItinerary zeroDurItin 60 = some zeroDurParsedDeal ∧
    zeroDurParsedDeal.duration_days = 1 :=
  ⟨rfl, rfl, rfl⟩

/-- C5 as amended.  The ozcruising parser discards candidates whose extracted
price or duration is zero, and the Carnival parser discards candidates with a
non-positive price while coercing a non-positive extracted duration to one
day; every emitted deal has a positive price and a positive duration. -/
theorem emitted_deal_positivity :
    (∀ (fullText : String) (imgAlt : Option String) (sn dest dp u : String)
        (dd sa : DateTime) (d : CruiseDeal),
        ozParseDeal fullText imgAlt sn dest dp u dd sa = some d →
        0 < d.total_price_aud ∧ 0 < d.duration_days) ∧
    (∀ (itin : CarnivalItin) (now : DateTime) (d : CruiseDeal),
        carnivalParseItinerary itin now = some d →
        0 < d.total_price_aud ∧ 1 ≤ d.duration_days) := by
  constructor
  · intro ft imgAlt sn dest dp u dd sa d h
    simp only [ozParseDeal] at h
    split at h
    · exact absurd h (by simp)
    · next hguard =>
      push_neg at hguard
      injection h with h
      subst h
      constructor
      · exact lt_of_le_of_ne (ozDealPrice_nonneg ft) (Ne.symm hguard.1)
      · show (0 : Int) < ((ozInlineDuration ft : Nat) : Int)
        have h2 := hguard.2
        omega
  · intro itin now d h
    simp only [carnivalParseItinerary] at h
    split at h
    · split at h
      · exact absurd h (by simp)
      · next hguard =>
        push_neg at hguard
        injection h with h
        subst h
        refine ⟨hguard.1, ?_⟩
        show (1 : Int) ≤ itin.dur.getD 0 + 1
        omega
    · split at h
      · exact absurd h (by simp)
      · next hguard =>
        push_neg at hguard
        injection h with h
        subst h
        exact ⟨hguard.1, le_refl 1⟩

/-- A concrete ozcruising deal container text. -/
def ozSampleText : String :=
  "Carnival Splendor 7 Nights From $999 Departing Sydney"

/-- The deal `ozSampleText` parses to: seven nights are stored as seven days,
the `From $` price is the total. -/
def ozSampleDeal : CruiseDeal :=
  { cruise_line := "Carnival"
    ship_name := "Carnival Splendor"
    destination := "Pacific"
    departure_date := 20260301
    duration_days := 7
    total_price_aud := 999
    price_per_day := pricePerDay 999 7
    cabin_type := "Interior"
    departure_port := "Sydney"
    url := "https://sourcea.example/deal"
    scraped_at := 100
    special_offers := some ""
    image_url := none }

/-- Witness for the amended C5 at a concrete ozcruising container. -/
theorem emitted_deal_positivity_witness :
    ozParseDeal ozSampleText (some "Carnival Cruise Line") "Carnival Splendor" "Pacific"
        "Sydney" "https://sourcea.example/deal" 20260301 100 = some ozSampleDeal ∧
    (0 < ozSampleDeal.total_price_aud ∧ 0 < ozSampleDeal.duration_days) :=
  ⟨rfl,
   emitted_deal_positivity.1 ozSampleText (some "Carnival Cruise Line") "Carnival Splendor"
     "Pacific" "Sydney" "https://sourcea.example/deal" 20260301 100 ozSampleDeal rfl⟩

/-- C6.  The `_extract_duration` helper converts nights to days (seven nights
parse to eight days, seven days stay seven); the inline duration extraction
of `_parse_deal`, however, stores the raw night count: seven nights parse to
seven, not eight. -/
theorem duration_parsing_eval :
    ozExtractDuration "7 Nights" = 8 ∧
    ozExtractDuration "7 Days" = 7 ∧
    ozInlineDuration "7 Nights" = 7 := by
  refine ⟨?_, ?_, ?_⟩ <;> rfl

/-- A stored deal as the pricing job sees it: listing-derived price 999 over
nine days. -/
def pricingSampleRow : CruiseDealDB :=
  { id := 5
    cruise_line := "Carnival"
    ship_name := "Carnival Luminosa"
    destination := "South Pacific"
    departure_date := 20260301
    duration_days := 9
    total_price_aud := 999
    price_per_day := PriceVal.val 111
    cabin_type := "Interior"
    departure_port := "Brisbane"
    url := "https://sourcea.example/lum"
    special_offers := none
    image_url := none
    scraped_at := 100
    last_updated := 100
    is_active := true }

/-- Counterexample to C3: when the pricing pass obtains a detail-page
interior price of 450 for a deal stored with `total_price_aud = 999`, the
stored price stays 999 (not 900) and `price_per_day` is untouched; the
result lands in `price_2p_interior` instead. -/
theorem enrichment_supersession_cex :
    (updatePricingStep pricingSampleRow (some 450) none).total_price_aud = 999 ∧
    (updatePricingStep pricingSampleRow (some 450) none).total_price_aud ≠ 900 ∧
    (updatePricingStep pricingSampleRow (some 450) none).price_per_day = PriceVal.val 111 ∧
    (updatePricingStep pricingSampleRow (some 450) none).price_2p_interior = some 450 := by
  refine ⟨rfl, ?_, rfl, rfl⟩
  intro hcontr
  exact absurd hcontr (by decide)

/-- C3 as amended.  When the pricing pass obtains a detail-page price for a
deal, it stores the obtained values into the dedicated `price_2p_interior`
and `price_4p_interior` columns as-is (no doubling) and leaves
`total_price_aud`, `price_per_day` and every identity field of the row
unchanged. -/
theorem pricing_pass_frame (r : CruiseDealDB) (p2 p4 : Option ℚ)
    (h : (truthyPrice p2 || truthyPrice p4) = true) :
    (updatePricingStep r p2 p4).total_price_aud = r.total_price_aud ∧
    (updatePricingStep r p2 p4).price_per_day = r.price_per_day ∧
    (updatePricingStep r p2 p4).duration_days = r.duration_days ∧
    (updatePricingStep r p2 p4).id = r.id ∧
    (updatePricingStep r p2 p4).price_2p_interior = p2 ∧
    (updatePricingStep r p2 p4).price_4p_interior = p4 := by
  unfold updatePricingStep
  rw [h]
  exact ⟨rfl, rfl, rfl, rfl, rfl, rfl⟩

/-- Witness for the amended C3 at the sample row with a found 450 price. -/
theorem pricing_pass_frame_witness :
    (truthyPrice (some 450) || truthyPrice none) = true ∧
    ((updatePricingStep pricingSampleRow (some 450) none).total_price_aud
        = pricingSampleRow.total_price_aud ∧
     (updatePricingStep pricingSampleRow (some 450) none).price_per_day
        = pricingSampleRow.price_per_day ∧
     (updatePricingStep pricingSampleRow (some 450) none).duration_days
        = pricingSampleRow.duration_days ∧
     (updatePricingStep pricingSampleRow (some 450) none).id = pricingSampleRow.id ∧
     (updatePricingStep pricingSampleRow (some 450) none).price_2p_interior = some 450 ∧
     (updatePricingStep pricingSampleRow (some 450) none).price_4p_interior = none) :=
  ⟨by decide, pricing_pass_frame pricingSampleRow (some 450) none (by decide)⟩

/-- The paginated page sequence of the C7 scenario: pages one to three list
30, 30 and 12 fresh candidates, later pages are empty. -/
def scenarioFetch : Nat → Option (List Nat) := fun n =>
  if n = 1 then some (List.range 30)
  else if n = 2 then some ((List.range 30).map (fun k => k + 30))
  else if n = 3 then some ((List.range 12).map (fun k => k + 60))
  else some []

/-- Counterexample to C7: with every page non-empty and the `max_pages` cap
at 5 (the value the ozcruising run passes), pagination stops after page 5
even though no page ever yielded zero candidates. -/
theorem pagination_two_empty_cex :
    (ozScrapeWithPagination (fun _ => some [(0 : Nat)]) 5).2 = [1, 2, 3, 4, 5] ∧
    (∀ n : Nat, (fun _ => some [(0 : Nat)]) n ≠ some []) :=
  ⟨by decide, fun _ => by simp⟩

/-- C7 as amended.  Pagination stops after two consecutive empty pages, a
non-empty page resets the consecutive-empty counter, and the `max_pages` cap
also bounds the walk; on the 30, 30, 12, 0, 0 scenario it stops at page 5
having accumulated exactly the candidates of pages one to three. -/
theorem pagination_stop_behaviour :
    (ozScrapeWithPagination scenarioFetch 100 = (List.range 72, [1, 2, 3, 4, 5])) ∧
    (∀ {α : Type} [DecidableEq α] (fetch : Nat → Option (List α))
        (maxPages fuel p : Nat) (acc : List α) (visited : List Nat),
        fetch p = some [] → fetch (p + 1) = some [] → p + 1 ≤ maxPages →
        ozPagGo fetch maxPages (fuel + 2) p 0 acc visited
          = (acc, visited ++ [p, p + 1])) ∧
    (∀ {α : Type} [DecidableEq α] (fetch : Nat → Option (List α))
        (maxPages fuel p c : Nat) (acc : List α) (visited : List Nat)
        (cands : List α),
        fetch p = some cands → cands ≠ [] → p ≤ maxPages →
        ozPagGo fetch maxPages (fuel + 1) p c acc visited
          = ozPagGo fetch maxPages fuel (p + 1) 0 (dedupAppend acc cands)
              (visited ++ [p])) := by
  refine ⟨by decide, ?_, ?_⟩
  · intro α _ fetch maxPages fuel p acc visited h1 h2 hp
    have hp1 : ¬ p > maxPages := by omega
    have hp2 : ¬ p + 1 > maxPages := by omega
    simp [ozPagGo, h1, h2, hp1, hp2]
  · intro α _ fetch maxPages fuel p c acc visited cands h1 h2 hp
    have hp1 : ¬ p > maxPages := by omega
    have hlen : ¬ cands.length = 0 := by
      simpa [List.length_eq_zero] using h2
    simp [ozPagGo, h1, hp1, hlen]

/-- Witness for the amended C7: a two-page all-empty source under cap 2 stops
after visiting exactly pages 1 and 2. -/
theorem pagination_stop_behaviour_witness :
    (fun _ : Nat => some ([] : List Nat)) 1 = some [] ∧
    (fun _ : Nat => some ([] : List Nat)) 2 = some [] ∧
    (1 : Nat) + 1 ≤ 2 ∧
    ozPagGo (fun _ : Nat => some ([] : List Nat)) 2 2 1 0 [] [] = ([], [1, 2]) :=
  ⟨rfl, rfl, by decide,
   pagination_stop_behaviour.2.1 (fun _ => some []) 2 0 1 [] [] rfl rfl (by decide)⟩

/-- Counterexample to C8: a source whose second page fetch raises returns
only the deals of the pages before the failure; the non-failing third page
is never visited, so its deal is missing. -/
theorem page_failure_skip_cex :
    ozScrapePages [Except.ok [some (1 : Nat)], Except.error (), Except.ok [some 3]] [] = [1] ∧
    (3 : Nat) ∉
      ozScrapePages [Except.ok [some (1 : Nat)], Except.error (), Except.ok [some 3]] [] := by
  decide

/-- C8 as amended.  A failed candidate parse is skipped with no effect on the
rest of its page; a page fetch that raises aborts the remaining pages of that
source while the deals accumulated before it are kept; and a source that
raises never disturbs the other sources' results. -/
theorem failure_isolation :
    (∀ {α : Type} [DecidableEq α] (acc : List α) (pre post : List (Option α)),
        parsePageCandidates acc (pre ++ none :: post) = parsePageCandidates acc (pre ++ post)) ∧
    (∀ {α : Type} [DecidableEq α] (acc : List α)
        (pre post : List (Except Unit (List (Option α)))),
        (∀ x ∈ pre, x.isOk = true) →
        ozScrapePages (pre ++ Except.error () :: post) acc = ozScrapePages pre acc) ∧
    (∀ {α : Type} (xs ys : List (Except Unit (List α))),
        runScrapers (xs ++ Except.error () :: ys) = runScrapers xs ++ runScrapers ys) := by
  refine ⟨?_, ?_, ?_⟩
  · intro α _ acc pre post
    simp [parsePageCandidates, List.foldl_append]
  · intro α _ acc pre post hok
    induction pre generalizing acc with
    | nil => rfl
    | cons x pre ih =>
      cases x with
      | ok cands =>
        simp only [List.cons_append, ozScrapePages]
        exact ih _ (fun y hy => hok y (List.mem_cons_of_mem _ hy))
      | error e =>
        exact absurd (hok (Except.error e) (List.mem_cons_self _ _))
          (by simp [Except.isOk, Except.toBool])
  · intro α xs ys
    have hfold : ∀ (l : List (Except Unit (List α))) (acc : List α),
        List.foldl scraperStep acc l = acc ++ runScrapers l := by
      intro l
      induction l with
      | nil =>
        intro acc
        simp [runScrapers]
      | cons x l ih =>
        intro acc
        rw [List.foldl_cons, ih (scraperStep acc x)]
        have hx : runScrapers (x :: l) = scraperStep [] x ++ runScrapers l := by
          show List.foldl scraperStep (scraperStep [] x) l = _
          exact ih (scraperStep [] x)
        rw [hx]
        cases x with
        | ok ds => simp [scraperStep, List.append_assoc]
        | error e => simp [scraperStep]
    show List.foldl scraperStep [] (xs ++ Except.error () :: ys)
        = runScrapers xs ++ runScrapers ys
    rw [List.foldl_append, List.foldl_cons]
    have hstep : scraperStep (List.foldl scraperStep ([] : List α) xs) (Except.error ())
        = List.foldl scraperStep ([] : List α) xs := rfl
    rw [hstep, hfold ys]
    rfl

/-- A page whose fetch and parses succeed, listing the single deal 5. -/
def goodPageA : Except Unit (List (Option Nat)) := Except.ok [some 5]

/-- A second succeeding page, listing the single deal 7. -/
def goodPageB : Except Unit (List (Option Nat)) := Except.ok [some 7]

/-- Witness for the amended C8: one good page, a raising fetch, one more good
page; the run equals the run over the good prefix alone. -/
theorem failure_isolation_witness :
    (∀ x ∈ [goodPageA], x.isOk = true) ∧
    ozScrapePages ([goodPageA] ++ Except.error () :: [goodPageB]) []
      = ozScrapePages [goodPageA] [] :=
  ⟨by decide, failure_isolation.2.1 [] [goodPageA] [goodPageB] (by decide)⟩

end CheapCruises
